import Mathlib

set_option maxRecDepth 4000

/-! Shallow embedding of the press-release-analyzer core
    (src/lib/prExtractor.ts and src/lib/apolloService.ts).

    External effects (HTTP fetch via axios, DOM scraping via cheerio, the
    language-generation service, the Apollo people-data endpoints) are
    modelled as oracle data carried in environment records; the control
    flow, string manipulation, coercions and error handling of the
    TypeScript source are translated directly.  JavaScript exceptions are
    modelled with Except / Option; JS `await` sequencing is modelled as
    sequential composition. -/

/-- Primitive JSON value, used for the elements of a parsed JSON array
(nested arrays and objects inside arrays are not needed by any claim and
are not modelled). -/
inductive JPrim where
  | pstr (s : String)
  | pnum (n : Int)
  | pbool (b : Bool)
  | pnull
deriving DecidableEq

/-- Value produced by JSON.parse, as accessed by the sanitization code in
extractWithClaude.  JSON numbers are modelled as integers (fractional
values are not modelled); a JS `undefined` (absent object field) is
modelled as `Option.none` at use sites. -/
inductive JVal where
  | jstr (s : String)
  | jnum (n : Int)
  | jbool (b : Bool)
  | jarr (elems : List JPrim)
  | jnull
deriving DecidableEq

/-- JavaScript truthiness of a JSON value. -/
def jvTruthy : JVal → Bool
  | .jstr s => !(s == "")
  | .jnum n => !(n == 0)
  | .jbool b => b
  | .jarr _ => true
  | .jnull => false

/-- JavaScript truthiness of a possibly-absent (undefined) JSON value. -/
def optTruthy : Option JVal → Bool
  | none => false
  | some v => jvTruthy v

/-- JS `x || d` for a possibly-absent JSON value `x`. -/
def jsOr (x : Option JVal) (d : JVal) : JVal :=
  match x with
  | some v => if jvTruthy v then v else d
  | none => d

/-- JS `x || d` on strings (the empty string and undefined are falsy). -/
def jsOrStr (x : Option String) (d : String) : String :=
  match x with
  | some s => if s == "" then d else s
  | none => d

/-- Whitespace recognised by JS string trimming and the regex class
backslash-s (the common cases; exotic unicode spaces are not modelled). -/
def isWsChar (c : Char) : Bool :=
  c == ' ' || c == '\t' || c == '\n' || c == '\r' || c == '\x0b' || c == '\x0c'

/-- Model of JS String.prototype.trim on the character list. -/
def strTrim (s : String) : String :=
  String.mk (((s.data.dropWhile (fun c => isWsChar c)).reverse.dropWhile
    (fun c => isWsChar c)).reverse)

/-- Decimal digit accumulator for parseIntM. -/
def parseDecGo : List Char → Nat → Option Nat
  | [], acc => some acc
  | c :: cs, acc =>
    if '0' ≤ c ∧ c ≤ '9' then parseDecGo cs (acc * 10 + (c.toNat - '0'.toNat))
    else none

/-- Parse a non-empty all-digit list as a natural number. -/
def parseDec : List Char → Option Nat
  | [] => none
  | l => parseDecGo l 0

/-- Model of JS Number() on a trimmed non-empty string restricted to
optionally signed decimal integers; `none` models NaN. -/
def parseIntM : List Char → Option Int
  | '-' :: rest => (parseDec rest).map (fun n => -(n : Int))
  | '+' :: rest => (parseDec rest).map (fun n => (n : Int))
  | l => (parseDec l).map (fun n => (n : Int))

/-- JS Number(...) coercion of a possibly-absent JSON value; `none` models
NaN.  JSON numbers are integers in this model, and numeric strings are
parsed as signed decimal integers. -/
def jsToNumber : Option JVal → Option Int
  | none => none
  | some (.jnum n) => some n
  | some (.jbool b) => some (if b then 1 else 0)
  | some .jnull => some 0
  | some (.jstr s) => if strTrim s == "" then some 0 else parseIntM (strTrim s).data
  | some (.jarr _) => none

/-- Helper for substring search: does the first list occur as a prefix of
the second? -/
def listStartsWith : List Char → List Char → Bool
  | [], _ => true
  | _ :: _, [] => false
  | p :: ps, c :: cs => p == c && listStartsWith ps cs

/-- Helper for substring search: does `pat` occur contiguously in the
second list? -/
def listHasSub (pat : List Char) : List Char → Bool
  | [] => pat.isEmpty
  | c :: cs => listStartsWith pat (c :: cs) || listHasSub pat cs

/-- JS String.prototype.includes. -/
def strIncludes (s pat : String) : Bool := listHasSub pat.data s.data

/-- Model of JS String.prototype.split with a single-character separator
(the source only ever splits on a slash), on the character list. -/
def splitOnCharL (sep : Char) : List Char → List (List Char)
  | [] => [[]]
  | c :: cs =>
    let r := splitOnCharL sep cs
    if c == sep then [] :: r
    else
      match r with
      | [] => [[c]]
      | h :: t => (c :: h) :: t

/-- Model of JS String.prototype.split with a single-character separator. -/
def jsSplit (s : String) (sep : Char) : List String :=
  (splitOnCharL sep s.data).map String.mk

/-- Fuel-driven global replacement of a pattern in a character list,
scanning left to right over non-overlapping occurrences; the fuel is the
input length, which each step consumes at least one character of. -/
def replaceAllL (pat rep : List Char) : Nat → List Char → List Char
  | _, [] => []
  | 0, l => l
  | fuel + 1, c :: cs =>
    if !pat.isEmpty && listStartsWith pat (c :: cs) then
      rep ++ replaceAllL pat rep fuel ((c :: cs).drop pat.length)
    else c :: replaceAllL pat rep fuel cs

/-- Model of JS String.prototype.replace with a global pattern. -/
def jsReplaceAll (s pat rep : String) : String :=
  String.mk (replaceAllL pat.data rep.data s.data.length s.data)

/-- Model of JS toLowerCase on one character (ASCII range; the title
strings involved are ASCII). -/
def lowerChar (c : Char) : Char :=
  if 'A' ≤ c ∧ c ≤ 'Z' then Char.ofNat (c.toNat + 32) else c

/-- Model of JS String.prototype.toLowerCase. -/
def strLower (s : String) : String := String.mk (s.data.map lowerChar)

/-- State machine implementing s.replace(regex of one-or-more whitespace,
single space) followed by trim: `sawWs` records a pending whitespace run,
`started` whether a word has been emitted yet. -/
def cwAux : List Char → Bool → Bool → List Char
  | [], _, _ => []
  | c :: cs, sawWs, started =>
    if isWsChar c then cwAux cs true started
    else if started && sawWs then ' ' :: c :: cwAux cs false true
    else c :: cwAux cs false true

/-- Collapse whitespace runs to single spaces and trim, as done on the
fetched content in fetchPRContent. -/
def collapseWsStr (s : String) : String := String.mk (cwAux s.data false false)

/-- Value of a hexadecimal digit character. -/
def hexDigitVal (c : Char) : Option Nat :=
  if '0' ≤ c ∧ c ≤ '9' then some (c.toNat - '0'.toNat)
  else if 'a' ≤ c ∧ c ≤ 'f' then some (c.toNat - 'a'.toNat + 10)
  else if 'A' ≤ c ∧ c ≤ 'F' then some (c.toNat - 'A'.toNat + 10)
  else none

/-- Percent-decoding on a character list; `none` models a thrown URIError
when a percent sign is not followed by two hexadecimal digits. -/
def decodeL : List Char → Option (List Char)
  | [] => some []
  | '%' :: a :: b :: rest =>
    match hexDigitVal a, hexDigitVal b with
    | some ha, some hb => (decodeL rest).map (fun l => Char.ofNat (16 * ha + hb) :: l)
    | _, _ => none
  | ['%'] => none
  | ['%', _] => none
  | c :: rest => (decodeL rest).map (fun l => c :: l)

/-- Model of the JS builtin decodeURIComponent: percent-decoding that
throws (here: `none`) on a percent sign not followed by two hex digits.
The multi-byte UTF-8 validation the real builtin additionally performs is
not modelled; the model is exact on inputs whose escapes are single-byte. -/
def decodeURIComponentM (s : String) : Option String :=
  (decodeL s.data).map String.mk

/-- The two executive roles resolved by the contact resolver. -/
inductive ExecRole where
  | ceo
  | cmo
deriving DecidableEq

/-- apolloService.ts: the ordered title-synonym lists used for the people
search (titleQueries in searchPeopleByTitle). -/
def titleQueries : ExecRole → List String
  | .ceo => ["CEO", "Chief Executive Officer", "Founder", "Co-Founder"]
  | .cmo => ["CMO", "Chief Marketing Officer", "VP Marketing",
             "Vice President Marketing", "Head of Marketing"]

/-- Loop body of apolloService.ts calculateTitleMatch: walk the target
titles in order; at the first target contained in the lowercased person
title return 100 on equality and 80 otherwise; 50 when no target is
contained. -/
def titleMatchGo (lowerTitle : String) : List String → Nat
  | [] => 50
  | target :: rest =>
    if strIncludes lowerTitle (strLower target) then
      (if lowerTitle == strLower target then 100 else 80)
    else titleMatchGo lowerTitle rest

/-- apolloService.ts calculateTitleMatch. -/
def calculateTitleMatch (personTitle : String) (targetTitles : List String) : Nat :=
  titleMatchGo (strLower personTitle) targetTitles

/-- apolloService.ts ApolloContact. -/
structure ApolloContact where
  email : String
  firstName : String
  lastName : String
  title : String
  confidence : Nat
deriving DecidableEq

/-- A person object as returned by the Apollo people-search endpoint
(fields may be absent). -/
structure ApolloPerson where
  first_name : Option String
  last_name : Option String
  title : Option String
deriving DecidableEq

/-- Outcome of the axios.post people-search call in searchPeopleByTitle:
either the request throws, or it resolves with a (possibly empty) list of
people (an absent or empty `people` field is modelled as the empty list). -/
inductive SearchOutcome where
  | fail (msg : String)
  | ok (people : List ApolloPerson)

/-- Outcome of the axios.post enrichment call in enrichPerson: the request
throws, or resolves without a person object, or resolves with a person
whose email field may be absent. -/
inductive EnrichOutcome where
  | fail (msg : String)
  | noPerson
  | person (email : Option String) (first_name : Option String)
      (last_name : Option String) (title : Option String)

/-- Oracle for the Apollo service: whether the APOLLO_API_KEY environment
variable is set (the ApolloService constructor throws when it is not), and
the responses of the two endpoints.  The enrichment response is keyed by
the (firstName, lastName) pair the code sends. -/
structure ApolloEnv where
  hasApiKey : Bool
  search : ExecRole → SearchOutcome
  enrich : String → String → EnrichOutcome

/-- Stable insertion into a list sorted by descending confidence: the new
element goes before the first element whose confidence does not exceed it.
Together with sortByConfDesc this is extensionally the JS stable
Array.prototype.sort with comparator (a, b) => b.confidence - a.confidence
used in searchPeopleByTitle. -/
def insertByConf (c : ApolloContact) : List ApolloContact → List ApolloContact
  | [] => [c]
  | x :: xs => if x.confidence ≤ c.confidence then c :: x :: xs else x :: insertByConf c xs

/-- Stable sort by descending confidence (see insertByConf). -/
def sortByConfDesc : List ApolloContact → List ApolloContact
  | [] => []
  | c :: cs => insertByConf c (sortByConfDesc cs)

/-- apolloService.ts searchPeopleByTitle: a thrown request is caught and
becomes the empty list; otherwise the returned people are mapped to
contacts (email empty, absent name fields defaulted to empty strings,
confidence scored by calculateTitleMatch) and sorted by descending
confidence. -/
def searchPeopleByTitle (o : SearchOutcome) (role : ExecRole) : List ApolloContact :=
  match o with
  | .fail _ => []
  | .ok people =>
    if people.isEmpty then []
    else sortByConfDesc (people.map (fun p =>
      { email := ""
        firstName := jsOrStr p.first_name ""
        lastName := jsOrStr p.last_name ""
        title := jsOrStr p.title ""
        confidence := calculateTitleMatch (jsOrStr p.title "") (titleQueries role) }))

/-- apolloService.ts enrichPerson: a thrown request or a response without
a person or without a truthy email yields null; otherwise a contact with
confidence 90 whose name fields fall back to the arguments. -/
def enrichPerson (o : EnrichOutcome) (firstName lastName : String) : Option ApolloContact :=
  match o with
  | .fail _ => none
  | .noPerson => none
  | .person email fn ln t =>
    match email with
    | none => none
    | some em =>
      if em == "" then none
      else some { email := em
                  firstName := jsOrStr fn firstName
                  lastName := jsOrStr ln lastName
                  title := jsOrStr t ""
                  confidence := 90 }

/-- apolloService.ts findExecutiveByTitle: search, take the first (top
scored) candidate, enrich it; no candidates yields null, and all errors
below are already absorbed. -/
def findExecutiveByTitle (env : ApolloEnv) (role : ExecRole) : Option ApolloContact :=
  match searchPeopleByTitle (env.search role) role with
  | [] => none
  | top :: _ => enrichPerson (env.enrich top.firstName top.lastName) top.firstName top.lastName

/-- The externally observable calls one role lookup makes, in order: the
people-search request always happens; the enrichment request happens only
when the search produced at least one candidate. -/
inductive ApEvent where
  | searchCall (r : ExecRole)
  | enrichCall (r : ExecRole)
deriving DecidableEq

/-- The role a call event belongs to. -/
def eventRole : ApEvent → ExecRole
  | .searchCall r => r
  | .enrichCall r => r

/-- findExecutiveByTitle together with the trace of external calls it
issues. -/
def lookupWithTrace (env : ApolloEnv) (role : ExecRole) :
    Option ApolloContact × List ApEvent :=
  match searchPeopleByTitle (env.search role) role with
  | [] => (none, [.searchCall role])
  | top :: _ =>
    (enrichPerson (env.enrich top.firstName top.lastName) top.firstName top.lastName,
     [.searchCall role, .enrichCall role])

/-- apolloService.ts findExecutiveContacts: the CEO lookup is awaited to
completion, then the CMO lookup runs; the result carries the two optional
emails.  The event list records the sequence of external calls, CEO phase
first. -/
def findExecutiveContacts (env : ApolloEnv) :
    (Option String × Option String) × List ApEvent :=
  let ceoR := lookupWithTrace env .ceo
  let cmoR := lookupWithTrace env .cmo
  ((ceoR.1.map (fun c => c.email), cmoR.1.map (fun c => c.email)), ceoR.2 ++ cmoR.2)

/-- prExtractor.ts findExecutiveContactsWithApollo: sentinel company names
skip resolution entirely; a throwing ApolloService constructor (missing
API key) is caught and degrades to both emails absent. -/
def findExecutiveContactsWithApollo (env : ApolloEnv) (companyName : JVal) :
    Option String × Option String :=
  if companyName == JVal.jstr "NOT FOUND" || companyName == JVal.jstr "EXTRACTION FAILED" then
    (none, none)
  else if !env.hasApiKey then (none, none)
  else (findExecutiveContacts env).1

/-- The axios error codes distinguished by the catch block of
fetchPRContent. -/
inductive NetErrCode where
  | enotfound
  | econnrefused
  | etimedout
  | otherCode
deriving DecidableEq

/-- Oracle data standing for the fetched HTML body and the results of the
cheerio DOM queries fetchPRContent performs on it: the body length, the
main content after the selector cascade and body fallback, and the title
and meta-description texts. -/
structure ScrapeData where
  htmlLen : Nat
  mainContent : String
  title : String
  description : String
deriving DecidableEq

/-- Outcome of the axios.get in fetchPRContent.  Because validateStatus
accepts every status below 500, `response` carries statuses below 500;
a rejected request (network error, or an HTTP status of at least 500)
is `netFail` with the axios error code, the optional response status and
the error message. -/
inductive FetchOutcome where
  | response (status : Nat) (scr : ScrapeData)
  | netFail (code : NetErrCode) (respStatus : Option Nat) (message : String)

/-- The catch block of fetchPRContent rethrows non-axios errors with this
prefix. -/
def wrapMsg (m : String) : String := "Unable to access this link: " ++ m

/-- Body of the try block of prExtractor.ts fetchPRContent, given a
resolved axios response: status checks, body-size check, content checks,
then the synthesized and whitespace-collapsed content string. -/
def fetchTryBody (status : Nat) (scr : ScrapeData) : Except String String :=
  if status == 403 || status == 401 then
    .error "Access denied - site requires authentication or blocks bots"
  else if status == 404 then
    .error "Article not found (404)"
  else if 400 ≤ status then
    .error ("HTTP " ++ toString status ++ ": Unable to access article")
  else if scr.htmlLen < 100 then
    .error "Empty or invalid response received"
  else if scr.mainContent == "" || scr.mainContent.length < 100 then
    .error "No meaningful content found on the page"
  else
    .ok (collapseWsStr ("Title: " ++ (scr.title ++ ("\n\nDescription: " ++
      (scr.description ++ ("\n\nContent: " ++ scr.mainContent))))))

/-- prExtractor.ts fetchPRContent: the try body above, with its catch
block.  Errors thrown inside the try are not axios errors, so they are
rethrown wrapped; axios rejections are classified by error code and then
by response status (a 403/404/429 response status is only possible here
if axios itself rejected, which validateStatus precludes for statuses
below 500). -/
def fetchPRContent : FetchOutcome → Except String String
  | .response status scr =>
    match fetchTryBody status scr with
    | .ok c => .ok c
    | .error m => .error (wrapMsg m)
  | .netFail code respStatus msg =>
    match code with
    | .enotfound => .error "Website not found - check if URL is correct"
    | .econnrefused => .error "Connection refused - website may be down"
    | .etimedout => .error "Request timed out - website is too slow to respond"
    | .otherCode =>
      if respStatus == some 403 then
        .error "Access forbidden - website blocks automated access"
      else if respStatus == some 404 then
        .error "Article not found (404)"
      else if respStatus == some 429 then
        .error "Rate limited - too many requests"
      else .error (wrapMsg msg)

/-- prExtractor.ts extractFromBusinessWireUrl: last path segment,
percent-decoded (this may throw a URIError, modelled as `.error`), hyphens
to spaces, literal "%24" to a dollar sign, spliced into the synthetic
press-release template. -/
def extractFromBusinessWireUrl (url : String) : Except String String :=
  let urlParts := jsSplit url '/'
  let titlePart := jsOrStr urlParts.getLast? ""
  match decodeURIComponentM titlePart with
  | none => .error "URI malformed"
  | some d =>
    let cleanTitle := jsReplaceAll (jsReplaceAll d "-" " ") "%24" "$"
    .ok ("\nTitle: " ++ (cleanTitle ++ ("\n\nThis is a Business Wire press release about: " ++
      (cleanTitle ++ ("\n\nBased on the URL structure, this appears to be an announcement about:\n" ++
      (cleanTitle ++ "\n\nThe URL suggests this is a significant business announcement that was published via Business Wire's platform.\n"))))))

/-- prExtractor.ts extractFromPRNewswireUrl: first path part mentioning
raises, announces or funding (default empty), hyphens to spaces, spliced
into the synthetic template. -/
def extractFromPRNewswireUrl (url : String) : String :=
  let urlParts := jsSplit url '/'
  let titlePart := jsOrStr (urlParts.find? (fun part =>
    strIncludes part "raises" || strIncludes part "announces" || strIncludes part "funding")) ""
  let cleanTitle := jsReplaceAll titlePart "-" " "
  "\nTitle: " ++ (cleanTitle ++ ("\n\nThis is a PR Newswire press release about: " ++
    (cleanTitle ++ "\n\nBased on the URL, this appears to be a funding or business announcement.\n")))

/-- prExtractor.ts extractFromGenericUrl.  `pathname` is the pathname of
the WHATWG URL parse of `url`; `none` models the TypeError thrown by the
URL constructor on an unparsable URL. -/
def extractFromGenericUrl (url : String) (pathname : Option String) : Except String String :=
  match pathname with
  | none => .error ("Invalid URL: " ++ url)
  | some p =>
    let titlePart := jsOrStr (jsSplit p '/').getLast? ""
    let cleanTitle := jsReplaceAll (jsReplaceAll titlePart "-" " ") "_" " "
    .ok ("\nTitle: " ++ (cleanTitle ++ ("\n\nURL: " ++ (url ++
      "\n\nThis appears to be a business or funding announcement based on the URL structure.\nThe specific content could not be accessed due to access restrictions.\n"))))

/-- prExtractor.ts tryUrlBasedExtraction: route by recognised
press-distribution domain substring, generic heuristic otherwise. -/
def tryUrlBasedExtraction (url : String) (pathname : Option String) : Except String String :=
  if strIncludes url "businesswire.com" then extractFromBusinessWireUrl url
  else if strIncludes url "prnewswire.com" then .ok (extractFromPRNewswireUrl url)
  else extractFromGenericUrl url pathname

/-- The fields of the JSON object returned by the generation service, as
accessed by the sanitization code (each may be absent). -/
structure ParsedFields where
  companyName : Option JVal := none
  leadInvestor : Option JVal := none
  followOnInvestors : Option JVal := none
  amountRaised : Option JVal := none
  classification : Option JVal := none
  isScam : Option JVal := none
  confidence : Option JVal := none
deriving DecidableEq

/-- The sanitized extraction result returned by extractWithClaude. -/
structure ExtractedData where
  companyName : JVal
  leadInvestor : JVal
  followOnInvestors : List JPrim
  amountRaised : JVal
  classification : JVal
  isScam : Bool
  confidence : Int
deriving DecidableEq

/-- Post-parse sanitization in prExtractor.ts extractWithClaude: falsy
companyName, leadInvestor, amountRaised default to "NOT FOUND"; a
non-array followOnInvestors becomes the empty list; falsy classification
defaults to "Other"; isScam is Boolean-coerced; confidence is
Number-coerced with 0 for NaN (and 0 stays 0 under the JS or). -/
def sanitizeExtracted (f : ParsedFields) : ExtractedData :=
  { companyName := jsOr f.companyName (.jstr "NOT FOUND")
    leadInvestor := jsOr f.leadInvestor (.jstr "NOT FOUND")
    followOnInvestors :=
      match f.followOnInvestors with
      | some (.jarr xs) => xs
      | _ => []
    amountRaised := jsOr f.amountRaised (.jstr "NOT FOUND")
    classification := jsOr f.classification (.jstr "Other")
    isScam := optTruthy f.isScam
    confidence :=
      match jsToNumber f.confidence with
      | none => 0
      | some n => if n == 0 then 0 else n }

/-- Outcome of the generation call in extractWithClaude: the API call
throws, or it returns text whose JSON.parse either throws (parsed = none,
with the JSON error message) or yields the parsed fields. -/
inductive ClaudeOutcome where
  | apiFail (msg : String)
  | reply (parsed : Option ParsedFields) (parseErrMsg : String)

/-- prExtractor.ts extractWithClaude: any error inside the try (API call
or JSON.parse) is rethrown as a Claude-extraction failure; a parsed
response is sanitized. -/
def extractWithClaude : ClaudeOutcome → Except String ExtractedData
  | .apiFail m => .error ("Claude extraction failed: " ++ m)
  | .reply none m => .error ("Claude extraction failed: " ++ m)
  | .reply (some f) _ => .ok (sanitizeExtracted f)

/-- types.ts PRData, the final record of one extraction.  String-typed
fields that the JS code copies from loosely-typed JSON keep the JVal
type. -/
structure PRData where
  companyName : JVal
  ceoEmail : String
  cmoEmail : String
  leadInvestor : JVal
  followOnInvestors : List JPrim
  amountRaised : JVal
  classification : JVal
  isScam : Bool
  confidence : Int
  extractionErrors : List String
deriving DecidableEq

/-- JS `x || "EMAIL NOT FOUND"` used when assembling the final record. -/
def orEmailSentinel (x : Option String) : String := jsOrStr x "EMAIL NOT FOUND"

/-- Oracle for one full pipeline attempt: the fetch outcome, the
generation outcome, the Apollo oracle, and the pathname of the WHATWG URL
parse of the submitted URL (none when the URL constructor throws). -/
structure AttemptEnv where
  fetch : FetchOutcome
  claude : ClaudeOutcome
  apollo : ApolloEnv
  pathname : Option String

/-- Step 1 and 2 of prExtractor.ts performExtraction: direct fetch, with
the URL-based fallback when the fetch throws. -/
def acquireContent (e : AttemptEnv) (url : String) : Except String String :=
  match fetchPRContent e.fetch with
  | .ok c => .ok c
  | .error _ => tryUrlBasedExtraction url e.pathname

/-- prExtractor.ts performExtraction: acquire content (throwing when the
acquired content is falsy), extract structured data, resolve executive
contacts when the company name is truthy and not the sentinel, and
assemble the final record with email sentinels and empty
extractionErrors. -/
def performExtraction (e : AttemptEnv) (url : String) : Except String PRData :=
  match acquireContent e url with
  | .error m => .error m
  | .ok prContent =>
    if prContent == "" then
      .error "Unable to access content from this URL with any method"
    else
      match extractWithClaude e.claude with
      | .error m => .error m
      | .ok ex =>
        let contacts :=
          if jvTruthy ex.companyName && !(ex.companyName == JVal.jstr "NOT FOUND") then
            findExecutiveContactsWithApollo e.apollo ex.companyName
          else (none, none)
        .ok { companyName := ex.companyName
              ceoEmail := orEmailSentinel contacts.1
              cmoEmail := orEmailSentinel contacts.2
              leadInvestor := ex.leadInvestor
              followOnInvestors := ex.followOnInvestors
              amountRaised := ex.amountRaised
              classification := ex.classification
              isScam := ex.isScam
              confidence := ex.confidence
              extractionErrors := [] }

/-- The terminal sentinel record extractPRData returns when every attempt
failed, with the last error message. -/
def terminalRecord (lastError : String) : PRData :=
  { companyName := .jstr "EXTRACTION FAILED"
    ceoEmail := "EMAIL NOT FOUND"
    cmoEmail := "EMAIL NOT FOUND"
    leadInvestor := .jstr "EXTRACTION FAILED"
    followOnInvestors := []
    amountRaised := .jstr "EXTRACTION FAILED"
    classification := .jstr "UNKNOWN"
    isScam := false
    confidence := 0
    extractionErrors := [lastError] }

/-- prExtractor.ts maxRetries. -/
def maxRetries : Nat := 2

/-- Observable scheduling events of the retry loop: one `attemptRun k` per
execution of performExtraction (k is the attempt counter at that point),
and one `delayMs` per awaited delay. -/
inductive RunEv where
  | attemptRun (k : Nat)
  | delayMs (ms : Nat)
deriving DecidableEq

/-- The while loop of prExtractor.ts extractPRData.  `fuel` is the number
of loop iterations still permitted (maxRetries + 1 - attempt); after a
failure the incremented counter is compared against maxRetries both for
the delay and for continuing, exactly as in the source.  Each attempt uses
the oracle `env attempt`, modelling that a rerun repeats every external
call afresh. -/
def extractGo (env : Nat → AttemptEnv) (url : String) :
    Nat → Nat → String → PRData × List RunEv
  | 0, _, lastError => (terminalRecord lastError, [])
  | fuel + 1, attempt, _ =>
    match performExtraction (env attempt) url with
    | .ok r => (r, [.attemptRun attempt])
    | .error msg =>
      if attempt + 1 ≤ maxRetries then
        let rest := extractGo env url fuel (attempt + 1) msg
        (rest.1, .attemptRun attempt :: .delayMs 3000 :: rest.2)
      else
        (terminalRecord msg, [.attemptRun attempt])

/-- prExtractor.ts extractPRData: the retry loop entered with attempt 0
and an empty last error, together with the scheduling trace. -/
def extractPRData (env : Nat → AttemptEnv) (url : String) : PRData × List RunEv :=
  extractGo env url (maxRetries + 1) 0 ""

/-- The closed classification enum from the extraction prompt of
extractWithClaude. -/
def closedEnum : List String :=
  ["Web3 Company", "AI Company", "AI SaaS Company", "SaaS Company",
   "Software Company", "Fintech Company", "Biotech Company",
   "CleanTech Company", "Investment Firm", "Other"]

deriving instance DecidableEq for Except

theorem strAppendNeEmptyLeft (a b : String) (h : a ≠ "") : a ++ b ≠ "" := by
  intro hc
  apply h
  have hd : (a ++ b).data = a.data ++ b.data := rfl
  rw [hc] at hd
  have h2 : a.data ++ b.data = [] := hd.symm
  rcases List.append_eq_nil.mp h2 with ⟨h1, _⟩
  apply String.ext
  rw [h1]

theorem collapseWs_title_ne (x : String) : collapseWsStr ("Title: " ++ x) ≠ "" := by
  intro h
  have hd : (collapseWsStr ("Title: " ++ x)).data = cwAux (("Title: " ++ x).data) false false := rfl
  rw [h] at hd
  have he : ("Title: " ++ x).data = 'T' :: ("itle: " ++ x).data := rfl
  rw [he] at hd
  have hs : cwAux ('T' :: ("itle: " ++ x).data) false false
      = 'T' :: cwAux (("itle: " ++ x).data) false true := by
    simp [cwAux, show isWsChar 'T' = false from rfl]
  rw [hs] at hd
  simp at hd

/-- The content returned by a successful direct fetch is never empty (it
begins with the synthesized Title header). -/
theorem fetchPRContent_ok_ne (o : FetchOutcome) (c : String)
    (h : fetchPRContent o = .ok c) : c ≠ "" := by
  cases o with
  | response status scr =>
    simp only [fetchPRContent] at h
    cases hb : fetchTryBody status scr with
    | error m => rw [hb] at h; simp at h
    | ok c0 =>
      rw [hb] at h
      simp at h
      subst h
      simp only [fetchTryBody] at hb
      split at hb
      · simp at hb
      · split at hb
        · simp at hb
        · split at hb
          · simp at hb
          · split at hb
            · simp at hb
            · split at hb
              · simp at hb
              · simp at hb
                rw [← hb]
                exact collapseWs_title_ne _
  | netFail code rs msg =>
    cases code with
    | enotfound => simp [fetchPRContent] at h
    | econnrefused => simp [fetchPRContent] at h
    | etimedout => simp [fetchPRContent] at h
    | otherCode =>
      simp only [fetchPRContent] at h
      split at h
      · simp at h
      · split at h
        · simp at h
        · split at h
          · simp at h
          · simp at h

/-- Every synthesized fallback content block is non-empty (each template
begins with a fixed Title header). -/
theorem tryUrl_ok_ne (url : String) (pn : Option String) (s : String)
    (h : tryUrlBasedExtraction url pn = .ok s) : s ≠ "" := by
  have hne : ∀ t : String, ("\nTitle: " ++ t) ≠ "" := fun t => by
    apply strAppendNeEmptyLeft
    decide
  simp only [tryUrlBasedExtraction] at h
  split at h
  · simp only [extractFromBusinessWireUrl] at h
    split at h
    · simp at h
    · simp at h
      rw [← h]
      apply hne
  · split at h
    · simp only [extractFromPRNewswireUrl] at h
      simp at h
      rw [← h]
      apply hne
    · simp only [extractFromGenericUrl] at h
      split at h
      · simp at h
      · simp at h
        rw [← h]
        apply hne

/-- Successfully acquired content is never empty, whichever strategy
produced it. -/
theorem acquireContent_ok_ne (e : AttemptEnv) (url : String) (c : String)
    (h : acquireContent e url = .ok c) : c ≠ "" := by
  simp only [acquireContent] at h
  cases hf : fetchPRContent e.fetch with
  | ok c0 =>
    rw [hf] at h
    simp at h
    exact h ▸ fetchPRContent_ok_ne _ _ hf
  | error m =>
    rw [hf] at h
    exact tryUrl_ok_ne _ _ _ h

/-- The contact pair performExtraction uses for a given sanitized
extraction result (the resolver is invoked only for a truthy,
non-sentinel company name). -/
def contactsFor (e : AttemptEnv) (ex : ExtractedData) : Option String × Option String :=
  if jvTruthy ex.companyName && !(ex.companyName == JVal.jstr "NOT FOUND") then
    findExecutiveContactsWithApollo e.apollo ex.companyName
  else (none, none)

/-- Inversion for a successful attempt: the returned record is the
assembly of the sanitized extraction result with the resolved contacts. -/
theorem performExtraction_ok_shape (e : AttemptEnv) (url : String) (r : PRData)
    (h : performExtraction e url = .ok r) :
    ∃ ex : ExtractedData, extractWithClaude e.claude = .ok ex ∧
      r = { companyName := ex.companyName
            ceoEmail := orEmailSentinel (contactsFor e ex).1
            cmoEmail := orEmailSentinel (contactsFor e ex).2
            leadInvestor := ex.leadInvestor
            followOnInvestors := ex.followOnInvestors
            amountRaised := ex.amountRaised
            classification := ex.classification
            isScam := ex.isScam
            confidence := ex.confidence
            extractionErrors := [] } := by
  simp only [performExtraction] at h
  cases ha : acquireContent e url with
  | error m => rw [ha] at h; simp at h
  | ok prContent =>
    rw [ha] at h
    simp only [] at h
    split at h
    · simp at h
    · cases hc : extractWithClaude e.claude with
      | error m => rw [hc] at h; simp at h
      | ok ex =>
        rw [hc] at h
        simp at h
        exact ⟨ex, rfl, by rw [← h]; simp [contactsFor]⟩

/-- The record produced by the retry loop is either the successful result
of some attempt or a terminal sentinel record. -/
theorem extractGo_result (env : Nat → AttemptEnv) (url : String) (fuel attempt : Nat) (le : String) :
    (∃ k, performExtraction (env k) url = .ok (extractGo env url fuel attempt le).1) ∨
    (∃ m, (extractGo env url fuel attempt le).1 = terminalRecord m) := by
  induction fuel generalizing attempt le with
  | zero => exact Or.inr ⟨le, rfl⟩
  | succ fuel ih =>
    cases hp : performExtraction (env attempt) url with
    | ok r => exact Or.inl ⟨attempt, by simp [extractGo, hp]⟩
    | error msg =>
      by_cases hle : attempt + 1 ≤ maxRetries
      · have heq : (extractGo env url (fuel + 1) attempt le).1
            = (extractGo env url fuel (attempt + 1) msg).1 := by
          simp [extractGo, hp, hle]
        rw [heq]
        exact ih (attempt + 1) msg
      · exact Or.inr ⟨msg, by simp [extractGo, hp, hle]⟩

/-- Specialization of extractGo_result to the pipeline entry point. -/
theorem extractPRData_result (env : Nat → AttemptEnv) (url : String) :
    (∃ k, performExtraction (env k) url = .ok (extractPRData env url).1) ∨
    (∃ m, (extractPRData env url).1 = terminalRecord m) :=
  extractGo_result env url (maxRetries + 1) 0 ""

/-- Scrape data for a page with a large body and ample main content. -/
def scrRich : ScrapeData :=
  { htmlLen := 5000
    mainContent := String.mk (List.replicate 120 'a')
    title := "T"
    description := "D" }

/-- Scrape data for an empty response body (unused when the status check
fails first). -/
def scrEmpty : ScrapeData := { htmlLen := 0, mainContent := "", title := "", description := "" }

/-- Apollo oracle with the API key missing: the ApolloService constructor
throws. -/
def apolloNoKey : ApolloEnv :=
  { hasApiKey := false, search := fun _ => .ok [], enrich := fun _ _ => .noPerson }

/-- Apollo oracle whose people search returns zero candidates for both
roles. -/
def apolloEmptySearch : ApolloEnv :=
  { hasApiKey := true, search := fun _ => .ok [], enrich := fun _ _ => .noPerson }

/-- Apollo oracle finding one candidate with an email for each role. -/
def apolloBoth : ApolloEnv :=
  { hasApiKey := true
    search := fun _ => .ok [{ first_name := some "Ada", last_name := some "L", title := some "CEO" }]
    enrich := fun _ _ => .person (some "a@x.com") none none none }

/-- A generation response whose classification lies outside the closed
enum and whose confidence exceeds 100. -/
def fieldsOffEnum : ParsedFields :=
  { companyName := some (.jstr "Acme")
    leadInvestor := some (.jstr "Acme Ventures")
    followOnInvestors := some (.jarr [])
    amountRaised := some (.jstr "$12M")
    classification := some (.jstr "Banana Company")
    isScam := some (.jbool false)
    confidence := some (.jnum 150) }

/-- A well-formed generation response (classification in the enum,
confidence 85). -/
def fieldsAcme : ParsedFields :=
  { companyName := some (.jstr "Acme")
    leadInvestor := some (.jstr "Acme Ventures")
    followOnInvestors := some (.jarr [])
    amountRaised := some (.jstr "$12M")
    classification := some (.jstr "SaaS Company")
    isScam := some (.jbool false)
    confidence := some (.jnum 85) }

/-- Pipeline oracle: fetch succeeds, the generation service returns the
off-enum response above. -/
def envOffEnum : Nat → AttemptEnv := fun _ =>
  { fetch := .response 200 scrRich
    claude := .reply (some fieldsOffEnum) ""
    apollo := apolloNoKey
    pathname := some "/x" }

/-- Pipeline oracle on which every attempt fails: the generation call
throws, with an attempt-dependent message. -/
def envAllFail : Nat → AttemptEnv := fun k =>
  { fetch := .response 200 scrRich
    claude := .apiFail ("generation unavailable " ++ toString k)
    apollo := apolloNoKey
    pathname := some "/x" }

/-- Pipeline oracle: the fetch always returns HTTP 404 while the
generation service parses the fallback content successfully. -/
def env404ok : Nat → AttemptEnv := fun _ =>
  { fetch := .response 404 scrEmpty
    claude := .reply (some fieldsAcme) ""
    apollo := apolloNoKey
    pathname := some "/news/acme-raises-50m" }

/-- Pipeline oracle: the fetch always returns HTTP 404 and the generation
call also fails on every attempt. -/
def env404fail : Nat → AttemptEnv := fun _ =>
  { fetch := .response 404 scrEmpty
    claude := .apiFail "boom"
    apollo := apolloNoKey
    pathname := some "/a" }

/-- Pipeline oracle: everything succeeds but the people search finds zero
candidates for both roles. -/
def envEmptySearch : Nat → AttemptEnv := fun _ =>
  { fetch := .response 200 scrRich
    claude := .reply (some fieldsAcme) ""
    apollo := apolloEmptySearch
    pathname := some "/x" }

/-- Inversion for a successful generation call: the outcome was a reply
with parseable JSON and the result is its sanitization. -/
theorem extractWithClaude_ok_shape (o : ClaudeOutcome) (ex : ExtractedData)
    (h : extractWithClaude o = .ok ex) :
    ∃ f m, o = .reply (some f) m ∧ ex = sanitizeExtracted f := by
  cases o with
  | apiFail m => simp [extractWithClaude] at h
  | reply p m =>
    cases p with
    | none => simp [extractWithClaude] at h
    | some f =>
      simp [extractWithClaude] at h
      exact ⟨f, m, rfl, h.symm⟩

/-- A generation outcome is well-formed when any parsed confidence value
coerces into [0, 100] and any truthy classification is a string of the
closed enum.  The sanitization in the code validates neither, so the
record-level bounds only hold under this assumption. -/
def ClaudeWellFormed : ClaudeOutcome → Prop
  | .reply (some f) _ =>
      (∀ n, jsToNumber f.confidence = some n → 0 ≤ n ∧ n ≤ 100) ∧
      (optTruthy f.classification = true →
        ∃ s, f.classification = some (.jstr s) ∧ s ∈ closedEnum)
  | _ => True

/-- C1, counterexample: the claim says post-parse sanitization replaces
any classification outside the closed enum by "Other" and that confidence
is always in [0, 100].  On a pipeline run whose generation service returns
classification "Banana Company" and confidence 150, the produced record
keeps both verbatim: the code only defaults falsy values
(`extracted.classification || 'Other'`, `Number(extracted.confidence) || 0`)
and never checks enum membership or the numeric range. -/
theorem c1_counterexample :
    (extractPRData envOffEnum "https://example.com/x").1.classification = JVal.jstr "Banana Company" ∧
    ¬ "Banana Company" ∈ closedEnum ∧
    (extractPRData envOffEnum "https://example.com/x").1.confidence = 150 ∧
    ¬ (extractPRData envOffEnum "https://example.com/x").1.confidence ≤ 100 := by
  decide

/-- C1, amended: sanitization only defaults falsy classification to
"Other" and NaN confidence to 0.  Whenever the generation service itself
returns a confidence in [0, 100] and a classification inside the closed
enum (or falsy), every produced record has confidence in [0, 100] and a
classification that is in the closed enum - except that the
terminal-failure record carries classification "UNKNOWN", which is outside
the closed enum. -/
theorem c1_amended (env : Nat → AttemptEnv) (url : String)
    (hw : ∀ k, ClaudeWellFormed (env k).claude) :
    (0 ≤ (extractPRData env url).1.confidence ∧ (extractPRData env url).1.confidence ≤ 100) ∧
    ((∃ s, (extractPRData env url).1.classification = JVal.jstr s ∧ s ∈ closedEnum) ∨
      (extractPRData env url).1.classification = JVal.jstr "UNKNOWN") := by
  rcases extractPRData_result env url with ⟨k, hk⟩ | ⟨m, hm⟩
  · rcases performExtraction_ok_shape _ _ _ hk with ⟨ex, hex, hr⟩
    rcases extractWithClaude_ok_shape _ _ hex with ⟨f, pm, hcl, hexf⟩
    have hwk := hw k
    rw [hcl] at hwk
    rcases hwk with ⟨hconf, hclass⟩
    rw [hr, hexf]
    constructor
    · simp only [sanitizeExtracted]
      cases hn : jsToNumber f.confidence with
      | none => simp
      | some n =>
        rcases hconf n hn with ⟨h0, h100⟩
        by_cases hz : n = 0
        · simp [hz]
        · have : (n == 0) = false := by simp [hz]
          simp [this, h0, h100]
    · simp only [sanitizeExtracted, jsOr]
      cases hcf : f.classification with
      | none => exact Or.inl ⟨"Other", rfl, by decide⟩
      | some v =>
        by_cases ht : jvTruthy v
        · have hopt := hclass (by simp [optTruthy, hcf, ht])
          rcases hopt with ⟨s, hs, hmem⟩
          rw [hcf] at hs
          cases hs
          refine Or.inl ⟨s, ?_, hmem⟩
          simp [ht]
        · have hf2 : jvTruthy v = false := by simpa using ht
          refine Or.inl ⟨"Other", ?_, by decide⟩
          simp [hf2]
  · rw [hm]
    exact ⟨⟨by norm_num [terminalRecord], by norm_num [terminalRecord]⟩, Or.inr rfl⟩

/-- C1 witness: the amended theorem applied to a concrete always-failing
oracle (a failing generation call is trivially well-formed). -/
theorem c1_witness :
    (0 ≤ (extractPRData envAllFail "https://example.com/x").1.confidence ∧
      (extractPRData envAllFail "https://example.com/x").1.confidence ≤ 100) ∧
    ((∃ s, (extractPRData envAllFail "https://example.com/x").1.classification = JVal.jstr s ∧
        s ∈ closedEnum) ∨
      (extractPRData envAllFail "https://example.com/x").1.classification = JVal.jstr "UNKNOWN") :=
  c1_amended envAllFail "https://example.com/x" (fun _ => trivial)

/-- C2: when all three attempts fail, extractPRData returns exactly the
terminal sentinel record, with extractionErrors holding exactly the last
attempt's error message.  The embedding is total, so no exception reaches
the caller on any path. -/
theorem c2_terminal_record (env : Nat → AttemptEnv) (url : String) (m0 m1 m2 : String)
    (h0 : performExtraction (env 0) url = .error m0)
    (h1 : performExtraction (env 1) url = .error m1)
    (h2 : performExtraction (env 2) url = .error m2) :
    (extractPRData env url).1 =
      { companyName := JVal.jstr "EXTRACTION FAILED"
        ceoEmail := "EMAIL NOT FOUND"
        cmoEmail := "EMAIL NOT FOUND"
        leadInvestor := JVal.jstr "EXTRACTION FAILED"
        followOnInvestors := []
        amountRaised := JVal.jstr "EXTRACTION FAILED"
        classification := JVal.jstr "UNKNOWN"
        isScam := false
        confidence := 0
        extractionErrors := [m2] } := by
  simp [extractPRData, extractGo, maxRetries, h0, h1, h2, terminalRecord]

/-- C2 witness: the terminal record for a concrete oracle whose
generation call fails on each of the three attempts. -/
theorem c2_witness :
    (extractPRData envAllFail "https://example.com/x").1 =
      { companyName := JVal.jstr "EXTRACTION FAILED"
        ceoEmail := "EMAIL NOT FOUND"
        cmoEmail := "EMAIL NOT FOUND"
        leadInvestor := JVal.jstr "EXTRACTION FAILED"
        followOnInvestors := []
        amountRaised := JVal.jstr "EXTRACTION FAILED"
        classification := JVal.jstr "UNKNOWN"
        isScam := false
        confidence := 0
        extractionErrors := ["Claude extraction failed: generation unavailable 2"] } :=
  c2_terminal_record envAllFail "https://example.com/x"
    "Claude extraction failed: generation unavailable 0"
    "Claude extraction failed: generation unavailable 1"
    "Claude extraction failed: generation unavailable 2"
    (by decide) (by decide) (by decide)

/-- Recognizer for attempt events in the scheduling trace. -/
def isAttemptEv : RunEv → Bool
  | .attemptRun _ => true
  | .delayMs _ => false

/-- Recognizer for delay events in the scheduling trace. -/
def isDelayEv : RunEv → Bool
  | .attemptRun _ => false
  | .delayMs _ => true

/-- C3, counterexample: on an oracle where every attempt fails (Scenario
B: the generation stage fails on all attempts), the loop performs 3
attempts but only 2 three-second delays, not the 3 delays the claim
states: the delay runs only when another attempt will follow. -/
theorem c3_counterexample :
    ((extractPRData envAllFail "https://example.com/x").2.filter isAttemptEv).length = 3 ∧
    ((extractPRData envAllFail "https://example.com/x").2.filter isDelayEv).length = 2 ∧
    ¬ ((extractPRData envAllFail "https://example.com/x").2.filter isDelayEv).length = 3 := by
  decide

/-- C3, amended: when every attempt fails, the orchestrator runs the full
sequence exactly 3 times (attempt counters 0, 1, 2, each re-running the
whole pipeline afresh with no partial resume), each retry preceded by one
fixed 3000 ms delay - hence 2 delays in total, not 3 - before the terminal
sentinel record is returned. -/
theorem c3_amended (env : Nat → AttemptEnv) (url : String) (m0 m1 m2 : String)
    (h0 : performExtraction (env 0) url = .error m0)
    (h1 : performExtraction (env 1) url = .error m1)
    (h2 : performExtraction (env 2) url = .error m2) :
    (extractPRData env url).2 =
      [.attemptRun 0, .delayMs 3000, .attemptRun 1, .delayMs 3000, .attemptRun 2] ∧
    (extractPRData env url).1 = terminalRecord m2 := by
  constructor
  · simp [extractPRData, extractGo, maxRetries, h0, h1, h2]
  · simp [extractPRData, extractGo, maxRetries, h0, h1, h2]

/-- C3 witness: the amended retry schedule on a concrete always-failing
oracle. -/
theorem c3_witness :
    (extractPRData envAllFail "https://example.com/x").2 =
      [.attemptRun 0, .delayMs 3000, .attemptRun 1, .delayMs 3000, .attemptRun 2] ∧
    (extractPRData envAllFail "https://example.com/x").1 =
      terminalRecord "Claude extraction failed: generation unavailable 2" :=
  c3_amended envAllFail "https://example.com/x"
    "Claude extraction failed: generation unavailable 0"
    "Claude extraction failed: generation unavailable 1"
    "Claude extraction failed: generation unavailable 2"
    (by decide) (by decide) (by decide)

/-- C4, counterexample: on an oracle whose fetch returns HTTP 404 on every
attempt but whose generation call succeeds on the URL-heuristic fallback
content, the pipeline succeeds on the first attempt: no terminal record
and no extractionErrors at all.  The 404 error thrown by the direct fetch
is recovered by tryUrlBasedExtraction instead of ending the attempt, so a
persistent 404 does not produce the claimed record. -/
theorem c4_counterexample :
    (extractPRData env404ok "https://example.com/news/acme-raises-50m").1.companyName = JVal.jstr "Acme" ∧
    (extractPRData env404ok "https://example.com/news/acme-raises-50m").1.extractionErrors = [] ∧
    ¬ (extractPRData env404ok "https://example.com/news/acme-raises-50m").1.companyName
        = JVal.jstr "EXTRACTION FAILED" ∧
    ¬ (extractPRData env404ok "https://example.com/news/acme-raises-50m").1.extractionErrors
        = ["Article not found (404)"] := by
  decide

/-- C4, amended: a 404 response makes the direct fetch fail with the
message "Unable to access this link: Article not found (404)" (the plain
"Article not found (404)" thrown inside the try block is rewrapped by its
own catch), after which acquisition falls back to the URL heuristic.  A
terminal record arises only when a downstream stage (here the generation
call) fails on all 3 attempts, and then extractionErrors carries the last
downstream message - after 3 attempts separated by 2 three-second
delays. -/
theorem c4_amended (scr : ScrapeData) (env : Nat → AttemptEnv) (url : String) (m : String)
    (hf : ∀ k, (env k).fetch = .response 404 scr)
    (hc : ∀ k, (env k).claude = .apiFail m)
    (hfb : ∀ k, ∃ s, tryUrlBasedExtraction url (env k).pathname = .ok s) :
    fetchPRContent (FetchOutcome.response 404 scr)
      = .error "Unable to access this link: Article not found (404)" ∧
    (extractPRData env url).1 = terminalRecord ("Claude extraction failed: " ++ m) ∧
    (extractPRData env url).2 =
      [.attemptRun 0, .delayMs 3000, .attemptRun 1, .delayMs 3000, .attemptRun 2] := by
  have hperf : ∀ k, performExtraction (env k) url
      = .error ("Claude extraction failed: " ++ m) := by
    intro k
    obtain ⟨s, hs⟩ := hfb k
    have hfetch : fetchPRContent (env k).fetch
        = .error (wrapMsg "Article not found (404)") := by
      rw [hf k]
      rfl
    have hacq : acquireContent (env k) url = .ok s := by
      simp [acquireContent, hfetch, hs]
    have hsne : s ≠ "" := tryUrl_ok_ne _ _ _ hs
    simp [performExtraction, hacq, hsne, extractWithClaude, hc k]
  refine ⟨rfl, ?_, ?_⟩
  · simp [extractPRData, extractGo, maxRetries, hperf]
  · simp [extractPRData, extractGo, maxRetries, hperf]

/-- C4 witness: the amended behaviour on a concrete oracle where the fetch
always 404s and the generation call always fails. -/
theorem c4_witness :
    fetchPRContent (FetchOutcome.response 404 scrEmpty)
      = .error "Unable to access this link: Article not found (404)" ∧
    (extractPRData env404fail "https://example.com/a").1
      = terminalRecord ("Claude extraction failed: " ++ "boom") ∧
    (extractPRData env404fail "https://example.com/a").2 =
      [.attemptRun 0, .delayMs 3000, .attemptRun 1, .delayMs 3000, .attemptRun 2] :=
  c4_amended scrEmpty env404fail "https://example.com/a" "boom"
    (fun _ => rfl) (fun _ => rfl)
    (fun k => ⟨"\nTitle: a\n\nURL: https://example.com/a\n\nThis appears to be a business or funding announcement based on the URL structure.\nThe specific content could not be accessed due to access restrictions.\n",
      by
        have hp : (env404fail k).pathname = some "/a" := rfl
        rw [hp]
        decide⟩)

/-- The email pair assembled by findExecutiveContacts is the pair of the
two role lookups' emails. -/
theorem findExecutiveContacts_fst (env : ApolloEnv) :
    (findExecutiveContacts env).1 =
      ((lookupWithTrace env .ceo).1.map (fun c => c.email),
       (lookupWithTrace env .cmo).1.map (fun c => c.email)) := rfl

/-- The resolver entry point either skips (sentinel name or missing API
key) or returns the two role lookups' emails. -/
theorem fecwa_cases (env : ApolloEnv) (cname : JVal) :
    findExecutiveContactsWithApollo env cname = (none, none) ∨
    findExecutiveContactsWithApollo env cname =
      ((lookupWithTrace env .ceo).1.map (fun c => c.email),
       (lookupWithTrace env .cmo).1.map (fun c => c.email)) := by
  simp only [findExecutiveContactsWithApollo]
  split
  · exact Or.inl rfl
  · split
    · exact Or.inl rfl
    · exact Or.inr (findExecutiveContacts_fst env)

/-- When the CEO lookup resolves to nothing, the assembled CEO contact is
absent. -/
theorem contactsFor_fst_none (e : AttemptEnv) (ex : ExtractedData)
    (hlk : (lookupWithTrace e.apollo .ceo).1 = none) :
    (contactsFor e ex).1 = none := by
  simp only [contactsFor]
  split
  · rcases fecwa_cases e.apollo ex.companyName with h | h <;> simp [h, hlk]
  · rfl

/-- When the CMO lookup resolves to nothing, the assembled CMO contact is
absent. -/
theorem contactsFor_snd_none (e : AttemptEnv) (ex : ExtractedData)
    (hlk : (lookupWithTrace e.apollo .cmo).1 = none) :
    (contactsFor e ex).2 = none := by
  simp only [contactsFor]
  split
  · rcases fecwa_cases e.apollo ex.companyName with h | h <;> simp [h, hlk]
  · rfl

/-- C5: in any successfully assembled record, a role whose people search
returned zero candidates, or whose selected candidate's enrichment
yielded no email, gets exactly "EMAIL NOT FOUND"; resolution is skipped entirely
for the sentinel company names; and a throwing ApolloService constructor
(missing API key) degrades both roles to the sentinel.  No exception
escapes resolution: every error path is a value in this total model,
mirroring the catch blocks at each level of the source. -/
theorem c5_resolver_absence (e : AttemptEnv) (url : String) (r : PRData)
    (hr : performExtraction e url = .ok r) :
    (searchPeopleByTitle (e.apollo.search .ceo) .ceo = [] → r.ceoEmail = "EMAIL NOT FOUND") ∧
    (searchPeopleByTitle (e.apollo.search .cmo) .cmo = [] → r.cmoEmail = "EMAIL NOT FOUND") ∧
    (∀ top rest, searchPeopleByTitle (e.apollo.search .ceo) .ceo = top :: rest →
      enrichPerson (e.apollo.enrich top.firstName top.lastName) top.firstName top.lastName = none →
      r.ceoEmail = "EMAIL NOT FOUND") ∧
    (∀ top rest, searchPeopleByTitle (e.apollo.search .cmo) .cmo = top :: rest →
      enrichPerson (e.apollo.enrich top.firstName top.lastName) top.firstName top.lastName = none →
      r.cmoEmail = "EMAIL NOT FOUND") ∧
    (∀ aenv : ApolloEnv,
      findExecutiveContactsWithApollo aenv (JVal.jstr "NOT FOUND") = (none, none) ∧
      findExecutiveContactsWithApollo aenv (JVal.jstr "EXTRACTION FAILED") = (none, none)) ∧
    (e.apollo.hasApiKey = false →
      r.ceoEmail = "EMAIL NOT FOUND" ∧ r.cmoEmail = "EMAIL NOT FOUND") := by
  rcases performExtraction_ok_shape _ _ _ hr with ⟨ex, _, hrec⟩
  refine ⟨?_, ?_, ?_, ?_, ?_, ?_⟩
  · intro hs
    rw [hrec]
    have hn : (lookupWithTrace e.apollo .ceo).1 = none := by simp [lookupWithTrace, hs]
    simp [contactsFor_fst_none e ex hn, orEmailSentinel, jsOrStr]
  · intro hs
    rw [hrec]
    have hn : (lookupWithTrace e.apollo .cmo).1 = none := by simp [lookupWithTrace, hs]
    simp [contactsFor_snd_none e ex hn, orEmailSentinel, jsOrStr]
  · intro top rest hs he
    rw [hrec]
    have hn : (lookupWithTrace e.apollo .ceo).1 = none := by simp [lookupWithTrace, hs, he]
    simp [contactsFor_fst_none e ex hn, orEmailSentinel, jsOrStr]
  · intro top rest hs he
    rw [hrec]
    have hn : (lookupWithTrace e.apollo .cmo).1 = none := by simp [lookupWithTrace, hs, he]
    simp [contactsFor_snd_none e ex hn, orEmailSentinel, jsOrStr]
  · intro aenv
    constructor <;> rfl
  · intro hk
    rw [hrec]
    have h1 : (contactsFor e ex).1 = none := by
      simp only [contactsFor]
      split
      · simp [findExecutiveContactsWithApollo, hk]
      · rfl
    have h2 : (contactsFor e ex).2 = none := by
      simp only [contactsFor]
      split
      · simp [findExecutiveContactsWithApollo, hk]
      · rfl
    simp [h1, h2, orEmailSentinel, jsOrStr]

/-- The record assembled on a concrete run where the people search finds
zero candidates for both roles. -/
def recEmptySearch : PRData :=
  { companyName := JVal.jstr "Acme"
    ceoEmail := "EMAIL NOT FOUND"
    cmoEmail := "EMAIL NOT FOUND"
    leadInvestor := JVal.jstr "Acme Ventures"
    followOnInvestors := []
    amountRaised := JVal.jstr "$12M"
    classification := JVal.jstr "SaaS Company"
    isScam := false
    confidence := 85
    extractionErrors := [] }

/-- C5 witness: on a concrete run whose people searches return zero
candidates, both email fields are exactly the sentinel. -/
theorem c5_witness :
    recEmptySearch.ceoEmail = "EMAIL NOT FOUND" ∧
    recEmptySearch.cmoEmail = "EMAIL NOT FOUND" := by
  have h := c5_resolver_absence (envEmptySearch 0) "https://example.com/x" recEmptySearch
    (by decide)
  exact ⟨h.1 (by decide), h.2.1 (by decide)⟩

/-- The first synonym in the target list whose lowercased form is
contained in the lowercased person title - the quantity that actually
drives calculateTitleMatch. -/
def firstIncludedTarget (lowerTitle : String) : List String → Option String
  | [] => none
  | t :: ts =>
    if strIncludes lowerTitle (strLower t) then some t
    else firstIncludedTarget lowerTitle ts

/-- The scored (pre-sort) contact list searchPeopleByTitle builds from the
returned people. -/
def scoredContacts (people : List ApolloPerson) (role : ExecRole) : List ApolloContact :=
  people.map (fun p =>
    { email := ""
      firstName := jsOrStr p.first_name ""
      lastName := jsOrStr p.last_name ""
      title := jsOrStr p.title ""
      confidence := calculateTitleMatch (jsOrStr p.title "") (titleQueries role) })

/-- A sort producing the empty list started from the empty list. -/
theorem sortByConfDesc_eq_nil (l : List ApolloContact) (h : sortByConfDesc l = []) : l = [] := by
  cases l with
  | nil => rfl
  | cons a as =>
    exfalso
    simp only [sortByConfDesc] at h
    cases hs : sortByConfDesc as with
    | nil => rw [hs] at h; simp [insertByConf] at h
    | cons b bs =>
      rw [hs] at h
      simp only [insertByConf] at h
      split at h <;> simp at h

/-- The head of the stable descending sort is the first element of the
input attaining the maximal confidence. -/
theorem sortHead_firstMax (l : List ApolloContact) (c : ApolloContact)
    (h : (sortByConfDesc l).head? = some c) :
    ∃ i : Nat, l[i]? = some c ∧
      (∀ (j : Nat) (x : ApolloContact), l[j]? = some x → x.confidence ≤ c.confidence) ∧
      (∀ (j : Nat) (x : ApolloContact), j < i → l[j]? = some x → x.confidence < c.confidence) := by
  induction l generalizing c with
  | nil => simp [sortByConfDesc] at h
  | cons a as ih =>
    simp only [sortByConfDesc] at h
    cases hs : sortByConfDesc as with
    | nil =>
      have has : as = [] := sortByConfDesc_eq_nil as hs
      rw [hs] at h
      simp only [insertByConf, List.head?] at h
      have hca : a = c := by simpa using h
      subst hca
      subst has
      refine ⟨0, by simp, ?_, ?_⟩
      · intro j x hj
        cases j with
        | zero => simp at hj; subst hj; exact le_refl _
        | succ k => simp at hj
      · intro j x hjlt
        omega
    | cons b bs =>
      have hbhead : (sortByConfDesc as).head? = some b := by rw [hs]; rfl
      rcases ih b hbhead with ⟨i', hget, hbound, hstrict⟩
      rw [hs] at h
      simp only [insertByConf] at h
      by_cases hba : b.confidence ≤ a.confidence
      · rw [if_pos hba] at h
        have hca : a = c := by simpa using h
        subst hca
        refine ⟨0, by simp, ?_, ?_⟩
        · intro j x hj
          cases j with
          | zero => simp at hj; subst hj; exact le_refl _
          | succ k =>
            simp at hj
            exact le_trans (hbound k x hj) hba
        · intro j x hjlt
          omega
      · rw [if_neg hba] at h
        have hcb : b = c := by
          have hh : (b :: insertByConf a bs).head? = some c := h
          simpa using hh
        subst hcb
        refine ⟨i' + 1, by simpa using hget, ?_, ?_⟩
        · intro j x hj
          cases j with
          | zero =>
            simp at hj
            subst hj
            exact le_of_lt (lt_of_not_le hba)
          | succ k =>
            simp at hj
            exact hbound k x hj
        · intro j x hjlt hj
          cases j with
          | zero =>
            simp at hj
            subst hj
            exact lt_of_not_le hba
          | succ k =>
            simp at hj
            exact hstrict k x (by omega) hj

/-- C6, counterexample: the title "Co-Founder" is an exact case-insensitive
match of the synonym "Co-Founder" in the CEO list, so the claim requires
score 100, but calculateTitleMatch returns 80: it walks the synonyms in
order and commits to the first one contained in the title - here
"Founder", a strict substring of "Co-Founder". -/
theorem c6_counterexample :
    calculateTitleMatch "Co-Founder" (titleQueries ExecRole.ceo) = 80 ∧
    "Co-Founder" ∈ titleQueries ExecRole.ceo ∧
    ¬ calculateTitleMatch "Co-Founder" (titleQueries ExecRole.ceo) = 100 := by
  decide

/-- C6, amended: the scorer walks the role's synonym list in order and
scores by the FIRST synonym contained in the lowercased title - 100 when
the title equals that synonym case-insensitively, 80 when it merely
contains it, and 50 when no synonym is contained (so an exact match of a
later synonym that contains an earlier one, such as "Co-Founder", scores
80).  The candidate handed to enrichment is the head of the stable
descending sort of the scored candidates: the earliest candidate of
maximal score, ties broken by search-result order. -/
theorem c6_amended :
    (∀ (personTitle : String) (targets : List String),
      calculateTitleMatch personTitle targets =
        (match firstIncludedTarget (strLower personTitle) targets with
          | none => 50
          | some t => if strLower personTitle == strLower t then 100 else 80)) ∧
    (∀ (people : List ApolloPerson) (role : ExecRole) (top : ApolloContact)
        (rest : List ApolloContact),
      searchPeopleByTitle (SearchOutcome.ok people) role = top :: rest →
      ∃ i : Nat, (scoredContacts people role)[i]? = some top ∧
        (∀ (j : Nat) (x : ApolloContact), (scoredContacts people role)[j]? = some x →
          x.confidence ≤ top.confidence) ∧
        (∀ (j : Nat) (x : ApolloContact), j < i → (scoredContacts people role)[j]? = some x →
          x.confidence < top.confidence)) ∧
    (∀ (env : ApolloEnv) (role : ExecRole) (top : ApolloContact) (rest : List ApolloContact),
      searchPeopleByTitle (env.search role) role = top :: rest →
      findExecutiveByTitle env role =
        enrichPerson (env.enrich top.firstName top.lastName) top.firstName top.lastName) := by
  refine ⟨?_, ?_, ?_⟩
  · intro personTitle targets
    induction targets with
    | nil => rfl
    | cons t ts ih =>
      simp only [calculateTitleMatch, titleMatchGo, firstIncludedTarget]
      split
      · rfl
      · exact ih
  · intro people role top rest h
    simp only [searchPeopleByTitle] at h
    split at h
    · simp at h
    · apply sortHead_firstMax
      rw [show sortByConfDesc (scoredContacts people role) = top :: rest from h]
      rfl
  · intro env role top rest h
    simp [findExecutiveByTitle, h]

/-- C6 witness: the scorer on a concrete exact synonym match, and the
selection-to-enrichment step on a concrete search result. -/
theorem c6_witness :
    calculateTitleMatch "VP Marketing" (titleQueries ExecRole.cmo) = 100 ∧
    findExecutiveByTitle apolloBoth ExecRole.ceo =
      enrichPerson (apolloBoth.enrich "Ada" "L") "Ada" "L" := by
  constructor
  · rw [c6_amended.1 "VP Marketing" (titleQueries ExecRole.cmo)]
    decide
  · exact c6_amended.2.2 apolloBoth ExecRole.ceo
      { email := "", firstName := "Ada", lastName := "L", title := "CEO", confidence := 100 }
      [] (by decide)

/-- Every external call issued by one role lookup belongs to that role. -/
theorem lookupWithTrace_role (env : ApolloEnv) (role : ExecRole) (e : ApEvent)
    (h : e ∈ (lookupWithTrace env role).2) : eventRole e = role := by
  simp only [lookupWithTrace] at h
  split at h
  · simp at h
    subst h
    rfl
  · simp at h
    rcases h with h | h <;> subst h <;> rfl

/-- C7, counterexample: on a concrete resolver run that finds and enriches
a candidate for both roles, the call trace is strictly sequential - the
first CMO call (index 2) comes after the last CEO call (index 1), because
the source awaits the CEO lookup to completion before starting the CMO
lookup.  This refutes the claim that neither lookup's start waits for the
other's completion. -/
theorem c7_counterexample :
    (findExecutiveContacts apolloBoth).2 =
      [.searchCall .ceo, .enrichCall .ceo, .searchCall .cmo, .enrichCall .cmo] ∧
    (findExecutiveContacts apolloBoth).2[1]? = some (ApEvent.enrichCall ExecRole.ceo) ∧
    (findExecutiveContacts apolloBoth).2[2]? = some (ApEvent.searchCall ExecRole.cmo) := by
  decide

/-- C7, amended: the CEO and CMO lookups execute sequentially, not
concurrently: in the external-call trace of one resolver run, every CEO
call strictly precedes every CMO call, so the CMO lookup starts only after
the CEO lookup has completed and resolver latency is the sum of the two
role lookups, not the maximum. -/
theorem c7_amended (env : ApolloEnv) (i j : Nat) (ei ej : ApEvent)
    (hi : (findExecutiveContacts env).2[i]? = some ei)
    (hj : (findExecutiveContacts env).2[j]? = some ej)
    (hri : eventRole ei = .ceo) (hrj : eventRole ej = .cmo) : i < j := by
  have htr : (findExecutiveContacts env).2 =
      (lookupWithTrace env .ceo).2 ++ (lookupWithTrace env .cmo).2 := rfl
  rw [htr] at hi hj
  set t1 := (lookupWithTrace env .ceo).2 with ht1
  set t2 := (lookupWithTrace env .cmo).2 with ht2
  by_cases hilt : i < t1.length
  · by_cases hjlt : j < t1.length
    · exfalso
      rw [List.getElem?_append_left hjlt] at hj
      have hm : ej ∈ t1 := List.getElem?_mem hj
      have hrole := lookupWithTrace_role env .ceo ej hm
      rw [hrj] at hrole
      exact absurd hrole (by decide)
    · omega
  · exfalso
    rw [List.getElem?_append_right (by omega)] at hi
    have hm : ei ∈ t2 := List.getElem?_mem hi
    have hrole := lookupWithTrace_role env .cmo ei hm
    rw [hri] at hrole
    exact absurd hrole (by decide)

/-- C7 witness: the sequencing theorem applied to the concrete trace of
apolloBoth, where the CEO enrichment (index 1) precedes the CMO search
(index 2). -/
theorem c7_witness : (1 : Nat) < 2 :=
  c7_amended apolloBoth 1 2 (ApEvent.enrichCall .ceo) (ApEvent.searchCall .cmo)
    (by decide) (by decide) rfl rfl

/-- C8, counterexample: a direct-fetch HTTP 429 response does NOT map to
the rate-limited classification: because validateStatus accepts every
status below 500, the 429 reaches the generic 4xx branch inside the try
block ("HTTP 429: Unable to access article", rewrapped by the catch),
while the "Rate limited - too many requests" branch matches only an axios
rejection carrying response status 429, which validateStatus makes
impossible for a direct response. -/
theorem c8_counterexample :
    fetchPRContent (.response 429 scrEmpty) =
      .error "Unable to access this link: HTTP 429: Unable to access article" ∧
    ¬ fetchPRContent (.response 429 scrEmpty) = .error "Rate limited - too many requests" := by
  decide

/-- C8, amended: for a direct-fetch response (status below 500 by
validateStatus), 401 and 403 map to the access-denied failure, 404 to the
not-found failure, and EVERY other 4xx - including 429 - to the generic
bad-request failure; a rejected request carrying a status of at least 500
surfaces as an error to the caller (and is retried only there, the fetch
itself issuing a single request). -/
theorem c8_amended (status : Nat) (scr : ScrapeData) (h4 : 400 ≤ status) (h5 : status < 500) :
    (status = 401 ∨ status = 403 →
      fetchPRContent (.response status scr) =
        .error (wrapMsg "Access denied - site requires authentication or blocks bots")) ∧
    (status = 404 →
      fetchPRContent (.response status scr) = .error (wrapMsg "Article not found (404)")) ∧
    (¬ status = 401 → ¬ status = 403 → ¬ status = 404 →
      fetchPRContent (.response status scr) =
        .error (wrapMsg ("HTTP " ++ toString status ++ ": Unable to access article"))) ∧
    (∀ (msg : String) (rs : Nat), 500 ≤ rs →
      fetchPRContent (.netFail .otherCode (some rs) msg) = .error (wrapMsg msg)) := by
  refine ⟨?_, ?_, ?_, ?_⟩
  · rintro (rfl | rfl) <;> rfl
  · rintro rfl
    rfl
  · intro h1 h3 h40
    have e1 : (status == 403) = false := by simp [h3]
    have e2 : (status == 401) = false := by simp [h1]
    have e3 : (status == 404) = false := by simp [h40]
    simp [fetchPRContent, fetchTryBody, e1, e2, e3, h4]
  · intro msg rs hrs
    have e1 : (some rs == some 403) = false := by simp; omega
    have e2 : (some rs == some 404) = false := by simp; omega
    have e3 : (some rs == some 429) = false := by simp; omega
    simp [fetchPRContent, e1, e2, e3]

/-- C8 witness: the amended classification applied at status 429 (generic
4xx bucket) and at a rejected 503 request. -/
theorem c8_witness :
    fetchPRContent (.response 429 scrRich) =
      .error (wrapMsg ("HTTP " ++ toString 429 ++ ": Unable to access article")) ∧
    fetchPRContent (.netFail .otherCode (some 503) "Request failed with status code 503") =
      .error (wrapMsg "Request failed with status code 503") := by
  have h := c8_amended 429 scrRich (by decide) (by decide)
  exact ⟨h.2.2.1 (by decide) (by decide) (by decide),
    h.2.2.2 "Request failed with status code 503" 503 (by decide)⟩

/-- C9, counterexample: the URL below is accepted by the WHATWG URL
constructor (which does not validate percent-escapes), yet the fallback
does not return a non-empty string for it - it throws: the Business Wire
branch percent-decodes the last path segment and decodeURIComponent
raises URIError on the malformed escape "%GG". -/
theorem c9_counterexample :
    tryUrlBasedExtraction "https://www.businesswire.com/news/home/20240101/en/Acme%GG"
      (some "/news/home/20240101/en/Acme%GG") = .error "URI malformed" := by
  decide

/-- C9, amended: whenever the URL-heuristic fallback does return (the
Business Wire branch can instead throw a URIError on a malformed percent
escape), its content is a non-empty string; and the acquisition stage
never yields an empty ok-result at all (the direct-fetch content starts
with a synthesized Title header), so the branch of performExtraction that
throws "Unable to access content from this URL with any method" - guarded
by the acquired content being empty - is unreachable. -/
theorem c9_amended (url : String) (pn : Option String) (s : String)
    (h : tryUrlBasedExtraction url pn = .ok s) :
    s ≠ "" ∧ ∀ (e : AttemptEnv) (u : String), ¬ acquireContent e u = .ok "" :=
  ⟨tryUrl_ok_ne url pn s h, fun e u hc => acquireContent_ok_ne e u "" hc rfl⟩

/-- C9 witness: the non-emptiness conclusion at a concrete generic URL. -/
theorem c9_witness :
    ("\nTitle: a\n\nURL: https://example.com/a\n\nThis appears to be a business or funding announcement based on the URL structure.\nThe specific content could not be accessed due to access restrictions.\n" : String) ≠ "" :=
  (c9_amended "https://example.com/a" (some "/a")
    "\nTitle: a\n\nURL: https://example.com/a\n\nThis appears to be a business or funding announcement based on the URL structure.\nThe specific content could not be accessed due to access restrictions.\n"
    (by decide)).1

/-- C10: in every record the pipeline returns, the two email fields are
never the empty string: the assembler substitutes the sentinel for any
falsy contact value (JS or-default, so the empty string itself becomes the
sentinel), the terminal record carries the sentinel, and enrichment only
produces a contact whose email passed a truthiness check, so it is
non-empty. -/
theorem c10_emails_nonempty (env : Nat → AttemptEnv) (url : String) :
    ((extractPRData env url).1.ceoEmail ≠ "" ∧ (extractPRData env url).1.cmoEmail ≠ "") ∧
    (∀ (o : EnrichOutcome) (fn ln : String) (c : ApolloContact),
      enrichPerson o fn ln = some c → c.email ≠ "") := by
  constructor
  · have hor : ∀ x : Option String, orEmailSentinel x ≠ "" := by
      intro x
      cases x with
      | none => decide
      | some s =>
        simp only [orEmailSentinel, jsOrStr]
        split
        · decide
        · next hs => simpa using hs
    rcases extractPRData_result env url with ⟨k, hk⟩ | ⟨m, hm⟩
    · rcases performExtraction_ok_shape _ _ _ hk with ⟨ex, _, hr⟩
      rw [hr]
      exact ⟨hor _, hor _⟩
    · rw [hm]
      exact ⟨by simp [terminalRecord], by simp [terminalRecord]⟩
  · intro o fn ln c hc
    cases o with
    | fail m => simp [enrichPerson] at hc
    | noPerson => simp [enrichPerson] at hc
    | person email f l t =>
      cases email with
      | none => simp [enrichPerson] at hc
      | some em =>
        simp only [enrichPerson] at hc
        split at hc
        · simp at hc
        · next hem =>
          simp at hc
          rw [← hc]
          simpa using hem

/-- C10 witness: the enrichment conclusion applied to a concrete enriched
person. -/
theorem c10_witness : ("a@x.com" : String) ≠ "" :=
  (c10_emails_nonempty envAllFail "https://example.com/x").2
    (EnrichOutcome.person (some "a@x.com") none none none) "Ada" "L"
    { email := "a@x.com", firstName := "Ada", lastName := "L", title := "", confidence := 90 }
    (by decide)
